import Mathlib

/-!
# Verification of pgespresso (concurrent online-backup coordination)

Shallow embedding of `src/pgespresso.c` together with the engine-side
collaborators it calls (`do_pg_start_backup`, `do_pg_stop_backup`,
`do_pg_abort_backup` and the WAL segment-name macros, which belong to the
storage engine and are not part of this repository; those are modelled from
the specification).  The three SQL-callable functions
`pgespresso_start_backup`, `pgespresso_stop_backup` and
`pgespresso_abort_backup` are translated as explicit state transformers on
an `EngineState` record.
-/

/-- Log sequence position (`XLogRecPtr`, a uint64 byte address in the WAL). -/
abbrev XLogRecPtr := Nat

/-- Timeline identifier (`TimeLineID`, a uint32). -/
abbrev TimeLineID := Nat

/-- Size in bytes of one WAL segment (`XLogSegSize`, default 16 MB,
i.e. 16 * 1024 * 1024 bytes). -/
def XLogSegSize : Nat := 16777216

/-- `XLogSegmentsPerXLogId = 0x100000000 / XLogSegSize` (= 256 for 16 MB segments). -/
def XLogSegmentsPerXLogId : Nat := 2 ^ 32 / XLogSegSize

/-- One uppercase hexadecimal digit, as printf `%X` renders it. -/
def hexChar (n : Nat) : Char :=
  if n < 10 then Char.ofNat (48 + n) else Char.ofNat (55 + n)

/-- Fixed-width rendering of the low 32 bits of `n` as printf `%08X` does:
eight uppercase hexadecimal digits, most significant first. -/
def hex8 (n : Nat) : String :=
  ⟨(List.range 8).reverse.map (fun i => hexChar (n / 16 ^ i % 16))⟩

/-- Modelled from the spec: the engine's `XLogFileName` macro (header
`access/xlog_internal.h`, not part of this repository) formats a timeline and
a (high, low) segment-index pair as `"%08X%08X%08X"`, each field cast to
uint32 — the fixed-width canonical segment name. -/
def xLogFileName3 (tli logId logSeg : Nat) : String :=
  hex8 (tli % 2 ^ 32) ++ hex8 (logId % 2 ^ 32) ++ hex8 (logSeg % 2 ^ 32)

/-- Modelled from the spec: the engine's `XLByteToPrevSeg` macro (not part of
this repository): the index of the segment containing the previous segment
boundary at or before `xlrp` — for a position exactly on a boundary this is
the preceding segment, otherwise the segment containing the position. -/
def xLByteToPrevSeg (xlrp : XLogRecPtr) : Nat :=
  (xlrp - 1) / XLogSegSize

/-- Modelled from the spec: the 9.3-era `XLogFileName` taking a single 64-bit
segment number, split into the two 32-bit fields of the canonical name. -/
def xLogFileName (tli : TimeLineID) (logSegNo : Nat) : String :=
  xLogFileName3 tli (logSegNo / XLogSegmentsPerXLogId) (logSegNo % XLogSegmentsPerXLogId)

/-- One open backup session of the Backup Session Registry.  Following the
public interface of `src/pgespresso.c`, the label-file text returned by
`pgespresso_start_backup` is the handle by which `pgespresso_stop_backup`
identifies the session, so the registry is keyed by `labelfile`. -/
structure BackupSession where
  labelfile : String
  startPosition : XLogRecPtr
  startTimeline : TimeLineID
  deriving Repr, DecidableEq

/-- Error conditions raised by the three SQL-callable functions:
`ERRCODE_INSUFFICIENT_PRIVILEGE` from the `superuser()` gate, and the
engine's unknown-session `ereport(ERROR, ...)` from `do_pg_stop_backup`. -/
inductive PgError where
  | notAuthorized
  | unknownSession
  deriving Repr, DecidableEq

/-- Process-wide engine state visible to the extension: the authorization
bit of the calling backend, the recovery flag and replay timeline of the
recovery subsystem, the global `ThisTimeLineID`, the current WAL write
position, the Backup Session Registry (`sessions`,
`forceFullPageWritesRefcount`, full-page-write enforcement), a counter for
allocating label-file nonces, and a flag recording whether any operation
ever waited for WAL archival. -/
structure EngineState where
  superuser : Bool
  inRecovery : Bool
  replayTLI : TimeLineID
  thisTimeLineID : TimeLineID
  currentWritePos : XLogRecPtr
  sessions : List BackupSession
  forceFullPageWritesRefcount : Nat
  fullPageWritesEnforced : Bool
  nextId : Nat
  waitedForArchive : Bool
  deriving Repr, DecidableEq

/-- Human-readable body of a backup label file: start position, start
timeline and the caller-supplied label, per the Label/Stop-File Generator. -/
def labelBody (userLabel : String) (startPos : XLogRecPtr) (tli : TimeLineID) : String :=
  "START WAL LOCATION: " ++ toString startPos ++
    " (timeline " ++ toString tli ++ ") LABEL: " ++ userLabel

/-- A generated label file: a nonce (rendered in unary so distinct nonces
give distinct texts) followed by the body.  Modelled from the spec: the
engine allocates a new unique id per session and the label text is the
artifact handed back to the caller. -/
def mkLabelfile (nonce : Nat) (body : String) : String :=
  ⟨'L' :: (List.replicate nonce '#' ++ '|' :: body.data)⟩

/-- Look up the open session whose label file equals `l`. -/
def findSession (l : String) : List BackupSession → Option BackupSession
  | [] => none
  | s :: rest => if s.labelfile = l then some s else findSession l rest

/-- Remove the first open session whose label file equals `l`. -/
def removeSession (l : String) : List BackupSession → List BackupSession
  | [] => []
  | s :: rest => if s.labelfile = l then rest else s :: removeSession l rest

/-- Modelled from the spec: the engine's `do_pg_start_backup` (not part of
this repository).  Captures the start position and timeline, allocates a
fresh session with a generated label file, inserts it into the registry,
increments `forceFullPageWritesRefcount` and, on the 0 to 1 transition,
turns full-page-write enforcement on.  Returns the label-file text. -/
def do_pg_start_backup (backupidstr : String) (_fast : Bool) (st : EngineState) :
    String × EngineState :=
  let startPos := st.currentWritePos
  let startTli := st.thisTimeLineID
  let label := mkLabelfile st.nextId (labelBody backupidstr startPos startTli)
  (label,
   { st with
      sessions := ⟨label, startPos, startTli⟩ :: st.sessions,
      forceFullPageWritesRefcount := st.forceFullPageWritesRefcount + 1,
      fullPageWritesEnforced :=
        if st.forceFullPageWritesRefcount = 0 then true else st.fullPageWritesEnforced,
      nextId := st.nextId + 1 })

/-- Modelled from the spec: the engine's `do_pg_stop_backup` (not part of
this repository).  Fails (`none`, no mutation) when no open session carries
the given label file; otherwise removes that session, decrements
`forceFullPageWritesRefcount`, on the 1 to 0 transition turns enforcement
off, and returns the captured stop position and stop timeline.  When
`waitforarchive` is set it would wait for the stop position to be archived;
the model records any such wait in `waitedForArchive`. -/
def do_pg_stop_backup (backupidstr : String) (waitforarchive : Bool) (st : EngineState) :
    Option (XLogRecPtr × TimeLineID) × EngineState :=
  match findSession backupidstr st.sessions with
  | none => (none, st)
  | some _ =>
      let endtli := if st.inRecovery then st.replayTLI else st.thisTimeLineID
      (some (st.currentWritePos, endtli),
       { st with
          sessions := removeSession backupidstr st.sessions,
          forceFullPageWritesRefcount := st.forceFullPageWritesRefcount - 1,
          fullPageWritesEnforced :=
            if st.forceFullPageWritesRefcount = 1 then false else st.fullPageWritesEnforced,
          waitedForArchive := st.waitedForArchive || waitforarchive })

/-- Modelled from the spec: the engine's `do_pg_abort_backup` (not part of
this repository).  Takes the calling backend's session out of backup mode —
removes it and decrements the refcount exactly as `stop` does, releasing
enforcement on the 1 to 0 transition — and is a no-op when there is nothing
to abort. -/
def do_pg_abort_backup (st : EngineState) : EngineState :=
  match st.sessions with
  | [] => st
  | _ :: rest =>
      { st with
         sessions := rest,
         forceFullPageWritesRefcount := st.forceFullPageWritesRefcount - 1,
         fullPageWritesEnforced :=
           if st.forceFullPageWritesRefcount = 1 then false else st.fullPageWritesEnforced }

/-- The timeline-resolution fragment of `pgespresso_start_backup`
(src/pgespresso.c lines 72-78, repeated at lines 142-148): during recovery
`ThisTimeLineID` is 0 in a normal backend, so the replay timeline is queried
fresh via `GetXLogReplayRecPtr` and written to the global; outside recovery
the global already holds the engine's own timeline. -/
def resolve_timeline (st : EngineState) : TimeLineID × EngineState :=
  if st.inRecovery then
    let replayTLI := st.replayTLI
    (replayTLI, { st with thisTimeLineID := replayTLI })
  else
    (st.thisTimeLineID, st)

/-- Embeds `pgespresso_start_backup` (src/pgespresso.c lines 51-91): convert
the argument, check `superuser()`, resolve the timeline into the global,
call `do_pg_start_backup`, return the label-file text. -/
def pgespresso_start_backup (backupid : String) (fast : Bool) (st : EngineState) :
    Except PgError String × EngineState :=
  let backupidstr := backupid
  if st.superuser = false then
    (.error .notAuthorized, st)
  else
    let st1 := (resolve_timeline st).2
    let r := do_pg_start_backup backupidstr fast st1
    (.ok r.1, r.2)

/-- Embeds `pgespresso_stop_backup` (src/pgespresso.c lines 102-156,
`PG_VERSION_NUM >= 90300` branch): convert the argument, check
`superuser()`, call `do_pg_stop_backup` with `waitforarchive = false`, and
return the segment filename built from the stop point and `endtli`. -/
def pgespresso_stop_backup (labelfile : String) (st : EngineState) :
    Except PgError String × EngineState :=
  let backupidstr := labelfile
  if st.superuser = false then
    (.error .notAuthorized, st)
  else
    match do_pg_stop_backup backupidstr false st with
    | (none, st1) => (.error .unknownSession, st1)
    | (some (stoppoint, endtli), st1) =>
        let xlogsegno := xLByteToPrevSeg stoppoint
        (.ok (xLogFileName endtli xlogsegno), st1)

/-- Embeds `pgespresso_stop_backup`, `PG_VERSION_NUM < 90300` branch
(src/pgespresso.c lines 129-152): `do_pg_stop_backup` returns no timeline,
so after it succeeds the replay timeline is queried and written to the
global `ThisTimeLineID`, which is then used to build the filename from the
9.2-era `(xlogid, xlogseg)` pair of the stop point. -/
def pgespresso_stop_backup_92 (labelfile : String) (st : EngineState) :
    Except PgError String × EngineState :=
  let backupidstr := labelfile
  if st.superuser = false then
    (.error .notAuthorized, st)
  else
    match do_pg_stop_backup backupidstr false st with
    | (none, st1) => (.error .unknownSession, st1)
    | (some (stoppoint, _), st1) =>
        let st2 := (resolve_timeline st1).2
        let xlogid :=
          if stoppoint % 2 ^ 32 = 0 then stoppoint / 2 ^ 32 - 1 else stoppoint / 2 ^ 32
        let xlogseg := (stoppoint % 2 ^ 32 - 1) / XLogSegSize
        (.ok (xLogFileName3 st2.thisTimeLineID xlogid xlogseg), st2)

/-- Embeds `pgespresso_abort_backup` (src/pgespresso.c lines 165-176): check
`superuser()`, then `do_pg_abort_backup`, returning void. -/
def pgespresso_abort_backup (st : EngineState) : Except PgError Unit × EngineState :=
  if st.superuser = false then
    (.error .notAuthorized, st)
  else
    (.ok (), do_pg_abort_backup st)

/-- One client-visible operation of the registry. -/
inductive Op where
  | startOp (label : String) (fast : Bool)
  | stopOp (labelfile : String)
  | abortOp
  deriving Repr, DecidableEq

/-- State reached after one operation (errors leave the state as returned). -/
def applyOp : Op → EngineState → EngineState
  | .startOp u f, st => (pgespresso_start_backup u f st).2
  | .stopOp l, st => (pgespresso_stop_backup l st).2
  | .abortOp, st => (pgespresso_abort_backup st).2

/-- State reached after a sequence of interleaved operations. -/
def run : List Op → EngineState → EngineState
  | [], st => st
  | op :: ops, st => run ops (applyOp op st)

/-- The registry invariant of the spec: the refcount equals the number of
open sessions, and full-page-write enforcement is active iff it is nonzero. -/
def RegistryInv (st : EngineState) : Prop :=
  st.forceFullPageWritesRefcount = st.sessions.length ∧
    (st.fullPageWritesEnforced = true ↔ st.forceFullPageWritesRefcount ≠ 0)

instance (st : EngineState) : Decidable (RegistryInv st) := by
  unfold RegistryInv; infer_instance

/-- Label files of open sessions all carry a nonce below `nextId`. -/
def LabelsFresh (st : EngineState) : Prop :=
  ∀ s ∈ st.sessions, ∃ n body, n < st.nextId ∧ s.labelfile = mkLabelfile n body

/-- The label-file text produced by an authorized `start` call. -/
def startLabel (u : String) (st : EngineState) : String :=
  mkLabelfile st.nextId
    (labelBody u st.currentWritePos
      (if st.inRecovery = true then st.replayTLI else st.thisTimeLineID))

/-- The state reached by an authorized `start` call. -/
def afterStart (u : String) (st : EngineState) : EngineState :=
  { st with
     thisTimeLineID :=
       if st.inRecovery = true then st.replayTLI else st.thisTimeLineID,
     sessions :=
       ⟨startLabel u st, st.currentWritePos,
         if st.inRecovery = true then st.replayTLI else st.thisTimeLineID⟩ ::
         st.sessions,
     forceFullPageWritesRefcount := st.forceFullPageWritesRefcount + 1,
     fullPageWritesEnforced :=
       if st.forceFullPageWritesRefcount = 0 then true
       else st.fullPageWritesEnforced,
     nextId := st.nextId + 1 }

/-- A quiescent engine state with no open session, used as concrete input. -/
def st0 : EngineState :=
  { superuser := true, inRecovery := false, replayTLI := 2, thisTimeLineID := 1,
    currentWritePos := 16777300, sessions := [], forceFullPageWritesRefcount := 0,
    fullPageWritesEnforced := false, nextId := 0, waitedForArchive := false }

/-- `st0` as seen by a caller that is not superuser. -/
def stNoSU : EngineState :=
  { st0 with superuser := false }

/-- A concrete open session used in counterexample states. -/
def sessA : BackupSession :=
  ⟨"L0", 100, 1⟩

/-- A state with one open session, write position inside segment 1. -/
def stStopA : EngineState :=
  { superuser := true, inRecovery := false, replayTLI := 0, thisTimeLineID := 1,
    currentWritePos := 16777300, sessions := [sessA],
    forceFullPageWritesRefcount := 1, fullPageWritesEnforced := true, nextId := 5,
    waitedForArchive := false }

/-- `stStopA` with a different write position in the same segment. -/
def stStopB : EngineState :=
  { stStopA with currentWritePos := 16777400 }

/-- A standby state: in recovery, replaying timeline 7, one open session. -/
def stRec : EngineState :=
  { superuser := true, inRecovery := true, replayTLI := 7, thisTimeLineID := 0,
    currentWritePos := 33554500, sessions := [⟨"L0", 100, 7⟩],
    forceFullPageWritesRefcount := 1, fullPageWritesEnforced := true, nextId := 3,
    waitedForArchive := false }

theorem replicate_hash_pipe_inj :
    ∀ {n m : Nat} {xs ys : List Char},
      List.replicate n '#' ++ '|' :: xs = List.replicate m '#' ++ '|' :: ys → n = m := by
  intro n
  induction n with
  | zero =>
      intro m xs ys h
      cases m with
      | zero => rfl
      | succ k =>
          rw [List.replicate_succ] at h
          simp only [List.replicate_zero, List.nil_append, List.cons_append,
            List.cons.injEq] at h
          exact absurd h.1 (by decide)
  | succ k ih =>
      intro m xs ys h
      cases m with
      | zero =>
          rw [List.replicate_succ] at h
          simp only [List.replicate_zero, List.nil_append, List.cons_append,
            List.cons.injEq] at h
          exact absurd h.1 (by decide)
      | succ j =>
          rw [List.replicate_succ, List.replicate_succ] at h
          simp only [List.cons_append, List.cons.injEq] at h
          exact congrArg Nat.succ (ih h.2)

theorem mkLabelfile_nonce_inj {n m : Nat} {b c : String}
    (h : mkLabelfile n b = mkLabelfile m c) : n = m := by
  have h2 : 'L' :: (List.replicate n '#' ++ '|' :: b.data) =
      'L' :: (List.replicate m '#' ++ '|' :: c.data) := congrArg String.data h
  simp only [List.cons.injEq] at h2
  exact replicate_hash_pipe_inj h2.2

theorem findSession_mem {l : String} :
    ∀ {ss : List BackupSession} {s : BackupSession},
      findSession l ss = some s → s ∈ ss ∧ s.labelfile = l := by
  intro ss
  induction ss with
  | nil => intro s h; simp [findSession] at h
  | cons a rest ih =>
      intro s h
      by_cases ha : a.labelfile = l
      · simp only [findSession, if_pos ha, Option.some.injEq] at h
        exact ⟨h ▸ List.mem_cons_self a rest, h ▸ ha⟩
      · simp only [findSession, if_neg ha] at h
        obtain ⟨hm, hl⟩ := ih h
        exact ⟨List.mem_cons_of_mem a hm, hl⟩

theorem removeSession_length {l : String} :
    ∀ {ss : List BackupSession},
      (findSession l ss).isSome → (removeSession l ss).length + 1 = ss.length := by
  intro ss
  induction ss with
  | nil => intro h; simp [findSession] at h
  | cons a rest ih =>
      intro h
      by_cases ha : a.labelfile = l
      · simp [removeSession, if_pos ha]
      · simp only [findSession, if_neg ha] at h
        simp only [removeSession, if_neg ha, List.length_cons]
        rw [← ih h]

theorem mem_removeSession {l : String} :
    ∀ {ss : List BackupSession} {t : BackupSession},
      t ∈ removeSession l ss → t ∈ ss := by
  intro ss
  induction ss with
  | nil => intro t h; simp [removeSession] at h
  | cons a rest ih =>
      intro t h
      by_cases ha : a.labelfile = l
      · simp only [removeSession, if_pos ha] at h
        exact List.mem_cons_of_mem a h
      · simp only [removeSession, if_neg ha, List.mem_cons] at h
        cases h with
        | inl h => exact h ▸ List.mem_cons_self a rest
        | inr h => exact List.mem_cons_of_mem a (ih h)

theorem afterStart_refcount (u : String) (st : EngineState) :
    (afterStart u st).forceFullPageWritesRefcount =
      st.forceFullPageWritesRefcount + 1 := rfl

theorem afterStart_sessions (u : String) (st : EngineState) :
    (afterStart u st).sessions =
      ⟨startLabel u st, st.currentWritePos,
        if st.inRecovery = true then st.replayTLI else st.thisTimeLineID⟩ ::
        st.sessions := rfl

theorem afterStart_enforced (u : String) (st : EngineState) :
    (afterStart u st).fullPageWritesEnforced =
      if st.forceFullPageWritesRefcount = 0 then true
      else st.fullPageWritesEnforced := rfl

theorem afterStart_nextId (u : String) (st : EngineState) :
    (afterStart u st).nextId = st.nextId + 1 := rfl

theorem afterStart_superuser (u : String) (st : EngineState) :
    (afterStart u st).superuser = st.superuser := rfl

theorem pgespresso_start_backup_eq (u : String) (f : Bool) (st : EngineState)
    (hsu : st.superuser = true) :
    pgespresso_start_backup u f st = (.ok (startLabel u st), afterStart u st) := by
  unfold pgespresso_start_backup do_pg_start_backup resolve_timeline afterStart startLabel
  by_cases hr : st.inRecovery = true <;> simp [hsu, hr]

theorem pgespresso_stop_backup_found (l : String) (st : EngineState)
    (s : BackupSession) (hsu : st.superuser = true)
    (hfind : findSession l st.sessions = some s) :
    pgespresso_stop_backup l st =
      (.ok (xLogFileName
              (if st.inRecovery = true then st.replayTLI else st.thisTimeLineID)
              (xLByteToPrevSeg st.currentWritePos)),
       { st with
          sessions := removeSession l st.sessions,
          forceFullPageWritesRefcount := st.forceFullPageWritesRefcount - 1,
          fullPageWritesEnforced :=
            if st.forceFullPageWritesRefcount = 1 then false
            else st.fullPageWritesEnforced }) := by
  unfold pgespresso_stop_backup do_pg_stop_backup
  by_cases hr : st.inRecovery = true <;> simp [hsu, hfind, hr]

theorem pgespresso_stop_backup_notfound (l : String) (st : EngineState)
    (hsu : st.superuser = true) (hfind : findSession l st.sessions = none) :
    pgespresso_stop_backup l st = (.error .unknownSession, st) := by
  unfold pgespresso_stop_backup do_pg_stop_backup
  simp [hsu, hfind]

theorem pgespresso_abort_backup_nil (st : EngineState)
    (hsu : st.superuser = true) (hss : st.sessions = []) :
    pgespresso_abort_backup st = (.ok (), st) := by
  unfold pgespresso_abort_backup do_pg_abort_backup
  simp [hsu, hss]

theorem pgespresso_abort_backup_cons (st : EngineState) (a : BackupSession)
    (rest : List BackupSession) (hsu : st.superuser = true)
    (hss : st.sessions = a :: rest) :
    pgespresso_abort_backup st =
      (.ok (),
       { st with
          sessions := rest,
          forceFullPageWritesRefcount := st.forceFullPageWritesRefcount - 1,
          fullPageWritesEnforced :=
            if st.forceFullPageWritesRefcount = 1 then false
            else st.fullPageWritesEnforced }) := by
  unfold pgespresso_abort_backup do_pg_abort_backup
  simp [hsu, hss]

theorem superuser_false_of_not_true {st : EngineState}
    (h : ¬st.superuser = true) : st.superuser = false := by
  revert h
  cases st.superuser <;> simp

theorem registryInv_start (u : String) (f : Bool) (st : EngineState)
    (h : RegistryInv st) : RegistryInv (pgespresso_start_backup u f st).2 := by
  obtain ⟨hlen, henf⟩ := h
  by_cases hsu : st.superuser = true
  · rw [pgespresso_start_backup_eq u f st hsu]
    constructor
    · rw [afterStart_refcount, afterStart_sessions, List.length_cons, hlen]
    · rw [afterStart_enforced, afterStart_refcount]
      by_cases hz : st.forceFullPageWritesRefcount = 0
      · simp [hz]
      · rw [if_neg hz]
        exact ⟨fun _ => by omega, fun _ => henf.mpr hz⟩
  · unfold pgespresso_start_backup
    simp only [superuser_false_of_not_true hsu]
    exact ⟨hlen, henf⟩

theorem registryInv_stop (l : String) (st : EngineState)
    (h : RegistryInv st) : RegistryInv (pgespresso_stop_backup l st).2 := by
  obtain ⟨hlen, henf⟩ := h
  by_cases hsu : st.superuser = true
  · cases hfind : findSession l st.sessions with
    | none =>
        rw [pgespresso_stop_backup_notfound l st hsu hfind]
        exact ⟨hlen, henf⟩
    | some s =>
        have hrm : (removeSession l st.sessions).length + 1 = st.sessions.length :=
          removeSession_length (by simp [hfind])
        rw [pgespresso_stop_backup_found l st s hsu hfind]
        refine ⟨by simp only []; omega, ?_⟩
        by_cases hone : st.forceFullPageWritesRefcount = 1
        · simp only [if_pos hone]
          constructor
          · intro hc; exact absurd hc (by simp)
          · intro hc
            exact absurd (show st.forceFullPageWritesRefcount - 1 = 0 by omega) hc
        · simp only [if_neg hone]
          rw [henf]
          omega
  · unfold pgespresso_stop_backup
    simp only [superuser_false_of_not_true hsu]
    exact ⟨hlen, henf⟩

theorem registryInv_abort (st : EngineState)
    (h : RegistryInv st) : RegistryInv (pgespresso_abort_backup st).2 := by
  obtain ⟨hlen, henf⟩ := h
  by_cases hsu : st.superuser = true
  · cases hss : st.sessions with
    | nil =>
        rw [pgespresso_abort_backup_nil st hsu hss]
        exact ⟨hlen, henf⟩
    | cons a rest =>
        have hrm : st.sessions.length = rest.length + 1 := by
          rw [hss]; simp
        rw [pgespresso_abort_backup_cons st a rest hsu hss]
        refine ⟨by simp only []; omega, ?_⟩
        by_cases hone : st.forceFullPageWritesRefcount = 1
        · simp only [if_pos hone]
          constructor
          · intro hc; exact absurd hc (by simp)
          · intro hc
            exact absurd (show st.forceFullPageWritesRefcount - 1 = 0 by omega) hc
        · simp only [if_neg hone]
          rw [henf]
          omega
  · unfold pgespresso_abort_backup
    simp only [superuser_false_of_not_true hsu]
    exact ⟨hlen, henf⟩

theorem registryInv_applyOp (op : Op) (st : EngineState)
    (h : RegistryInv st) : RegistryInv (applyOp op st) := by
  cases op with
  | startOp u f => exact registryInv_start u f st h
  | stopOp l => exact registryInv_stop l st h
  | abortOp => exact registryInv_abort st h

theorem labelsFresh_start (u : String) (f : Bool) (st : EngineState)
    (h : LabelsFresh st) : LabelsFresh (pgespresso_start_backup u f st).2 := by
  by_cases hsu : st.superuser = true
  · rw [pgespresso_start_backup_eq u f st hsu]
    intro s hs
    rw [afterStart_sessions] at hs
    rw [afterStart_nextId]
    simp only [List.mem_cons] at hs
    cases hs with
    | inl hs =>
        refine ⟨st.nextId,
          labelBody u st.currentWritePos
            (if st.inRecovery = true then st.replayTLI else st.thisTimeLineID),
          Nat.lt_succ_self _, ?_⟩
        rw [hs]
        rfl
    | inr hs =>
        obtain ⟨n, body, hn, hb⟩ := h s hs
        exact ⟨n, body, Nat.lt_succ_of_lt hn, hb⟩
  · unfold pgespresso_start_backup
    simp only [superuser_false_of_not_true hsu]
    exact h

theorem labelsFresh_stop (l : String) (st : EngineState)
    (h : LabelsFresh st) : LabelsFresh (pgespresso_stop_backup l st).2 := by
  by_cases hsu : st.superuser = true
  · cases hfind : findSession l st.sessions with
    | none =>
        rw [pgespresso_stop_backup_notfound l st hsu hfind]
        exact h
    | some s =>
        rw [pgespresso_stop_backup_found l st s hsu hfind]
        intro t ht
        exact h t (mem_removeSession ht)
  · unfold pgespresso_stop_backup
    simp only [superuser_false_of_not_true hsu]
    exact h

theorem labelsFresh_abort (st : EngineState)
    (h : LabelsFresh st) : LabelsFresh (pgespresso_abort_backup st).2 := by
  by_cases hsu : st.superuser = true
  · cases hss : st.sessions with
    | nil =>
        rw [pgespresso_abort_backup_nil st hsu hss]
        exact h
    | cons a rest =>
        rw [pgespresso_abort_backup_cons st a rest hsu hss]
        intro t ht
        exact h t (by rw [hss]; exact List.mem_cons_of_mem a ht)
  · unfold pgespresso_abort_backup
    simp only [superuser_false_of_not_true hsu]
    exact h

theorem hex8_length (n : Nat) : (hex8 n).length = 8 := by
  simp [hex8, String.length]

theorem xLogFileName_length (tli : TimeLineID) (segNo : Nat) :
    (xLogFileName tli segNo).length = 24 := by
  simp [xLogFileName, xLogFileName3, String.length_append, hex8_length]

theorem prevSeg_bounds (p : Nat) (hp : 0 < p) :
    (p - 1) / 16777216 * 16777216 < p ∧
      p ≤ ((p - 1) / 16777216 + 1) * 16777216 := by
  omega

theorem prevSeg_boundary (k : Nat) (hk : 0 < k) :
    (k * 16777216 - 1) / 16777216 = k - 1 := by
  omega

/-- C1: for every sequence of interleaved start/stop/abort calls, at every
quiescent point between operations `force_full_page_writes_refcount` equals
the number of open sessions, and full-page-write enforcement is active iff
that count is nonzero. -/
theorem refcount_matches_sessions (ops : List Op) (st : EngineState)
    (h : RegistryInv st) : RegistryInv (run ops st) := by
  induction ops generalizing st with
  | nil => exact h
  | cons op rest ih => exact ih (applyOp op st) (registryInv_applyOp op st h)

/-- Witness for C1: the invariant holds after a concrete call sequence from
the quiescent initial state. -/
theorem refcount_matches_sessions_witness :
    RegistryInv st0 ∧
      RegistryInv (run [Op.startOp "nightly" false, Op.startOp "adhoc" true,
        Op.stopOp "nope", Op.abortOp] st0) :=
  ⟨by decide, refcount_matches_sessions
    [Op.startOp "nightly" false, Op.startOp "adhoc" true,
      Op.stopOp "nope", Op.abortOp] st0 (by decide)⟩

/-- C4 as stated is false: called by a non-superuser, abort raises the
not-authorized error instead of completing without error. -/
theorem abort_unauthorized_fails_cex :
    (pgespresso_abort_backup stNoSU).1 = .error .notAuthorized := rfl

/-- C4 (amended): for every authorized call and every state — including
when there is nothing to abort — abort completes without raising an error
and returns nothing. -/
theorem abort_authorized_never_fails (st : EngineState)
    (hsu : st.superuser = true) :
    (pgespresso_abort_backup st).1 = .ok () := by
  simp [pgespresso_abort_backup, hsu]

/-- Witness for amended C4: an authorized abort on a state with no open
session completes and returns nothing. -/
theorem abort_authorized_never_fails_witness :
    st0.superuser = true ∧ st0.sessions = [] ∧
      (pgespresso_abort_backup st0).1 = .ok () :=
  ⟨rfl, rfl, abort_authorized_never_fails st0 rfl⟩

/-- C5: when the superuser check fails, every operation (start, stop in both
version branches, abort) fails with the not-authorized condition and the
whole engine state — sessions, refcount, enforcement and globals — is
returned unchanged. -/
theorem auth_failure_leaves_state_unchanged (u l : String) (f : Bool)
    (st : EngineState) (hsu : st.superuser = false) :
    pgespresso_start_backup u f st = (.error .notAuthorized, st) ∧
    pgespresso_stop_backup l st = (.error .notAuthorized, st) ∧
    pgespresso_stop_backup_92 l st = (.error .notAuthorized, st) ∧
    pgespresso_abort_backup st = (.error .notAuthorized, st) := by
  refine ⟨?_, ?_, ?_, ?_⟩ <;>
    simp [pgespresso_start_backup, pgespresso_stop_backup,
      pgespresso_stop_backup_92, pgespresso_abort_backup, hsu]

/-- Witness for C5: the unauthorized state is returned unchanged by all four
entry points. -/
theorem auth_failure_leaves_state_unchanged_witness :
    stNoSU.superuser = false ∧
      pgespresso_start_backup "nightly" false stNoSU =
        (.error .notAuthorized, stNoSU) ∧
      pgespresso_stop_backup "L0" stNoSU = (.error .notAuthorized, stNoSU) ∧
      pgespresso_stop_backup_92 "L0" stNoSU = (.error .notAuthorized, stNoSU) ∧
      pgespresso_abort_backup stNoSU = (.error .notAuthorized, stNoSU) :=
  ⟨rfl, auth_failure_leaves_state_unchanged "nightly" "L0" false stNoSU rfl⟩

/-- C8: stop never waits for archival: both version branches call
`do_pg_stop_backup` with `waitforarchive = false`, so the archive-wait
effect flag is untouched by every stop call, successful or not. -/
theorem stop_never_waits_for_archive (l : String) (st : EngineState) :
    ((pgespresso_stop_backup l st).2).waitedForArchive = st.waitedForArchive ∧
    ((pgespresso_stop_backup_92 l st).2).waitedForArchive = st.waitedForArchive := by
  constructor
  · by_cases hsu : st.superuser = true
    · cases hfind : findSession l st.sessions with
      | none => rw [pgespresso_stop_backup_notfound l st hsu hfind]
      | some s => rw [pgespresso_stop_backup_found l st s hsu hfind]
    · simp [pgespresso_stop_backup, superuser_false_of_not_true hsu]
  · by_cases hsu : st.superuser = true
    · unfold pgespresso_stop_backup_92 do_pg_stop_backup resolve_timeline
      cases hfind : findSession l st.sessions with
      | none => simp [hsu, hfind]
      | some s =>
          by_cases hr : st.inRecovery = true <;> simp [hsu, hfind, hr]
    · simp [pgespresso_stop_backup_92, superuser_false_of_not_true hsu]

/-- C2 as stated is false: two states that differ only in the captured stop
position (same segment) make stop return the identical single text value, so
the return value cannot contain the stop log position — only the segment
filename is returned. -/
theorem stop_returns_no_position_cex :
    stStopA.currentWritePos ≠ stStopB.currentWritePos ∧
    (do_pg_stop_backup "L0" false stStopA).1 ≠ (do_pg_stop_backup "L0" false stStopB).1 ∧
    (pgespresso_stop_backup "L0" stStopA).1 = (pgespresso_stop_backup "L0" stStopB).1 ∧
    (pgespresso_stop_backup "L0" stStopA).1 = .ok (xLogFileName 1 1) := by
  refine ⟨by decide, by decide, rfl, rfl⟩

/-- C2 (amended): every successful stop call returns (only) the segment
filename computed by the Segment Filename Encoder from the captured stop
position and stop timeline; the stop position itself is not part of the
return value. -/
theorem stop_returns_segment_filename (l : String) (st : EngineState)
    (s : BackupSession) (hsu : st.superuser = true)
    (hfind : findSession l st.sessions = some s) :
    ∃ stoppoint endtli,
      (do_pg_stop_backup l false st).1 = some (stoppoint, endtli) ∧
      (pgespresso_stop_backup l st).1 =
        .ok (xLogFileName endtli (xLByteToPrevSeg stoppoint)) := by
  refine ⟨st.currentWritePos,
    if st.inRecovery = true then st.replayTLI else st.thisTimeLineID, ?_, ?_⟩
  · unfold do_pg_stop_backup
    rw [hfind]
  · rw [pgespresso_stop_backup_found l st s hsu hfind]

/-- Witness for amended C2 at a concrete state with one open session. -/
theorem stop_returns_segment_filename_witness :
    stStopA.superuser = true ∧ findSession "L0" stStopA.sessions = some sessA ∧
      (∃ stoppoint endtli,
        (do_pg_stop_backup "L0" false stStopA).1 = some (stoppoint, endtli) ∧
        (pgespresso_stop_backup "L0" stStopA).1 =
          .ok (xLogFileName endtli (xLByteToPrevSeg stoppoint))) :=
  ⟨rfl, by decide,
    stop_returns_segment_filename "L0" stStopA sessA rfl (by decide)⟩

/-- C3: every authorized start call returns the generated label text, which
is also the session handle; the returned handle is not the label file of any
session open before the call and is present (open) in the registry
immediately after the call. -/
theorem start_returns_fresh_open_session (u : String) (f : Bool)
    (st : EngineState) (hsu : st.superuser = true) (hfresh : LabelsFresh st) :
    ∃ lbl st1, pgespresso_start_backup u f st = (.ok lbl, st1) ∧
      (∀ s ∈ st.sessions, s.labelfile ≠ lbl) ∧
      (∃ s ∈ st1.sessions, s.labelfile = lbl) := by
  refine ⟨startLabel u st, afterStart u st,
    pgespresso_start_backup_eq u f st hsu, ?_, ?_⟩
  · intro s hs heq
    obtain ⟨n, body, hn, hb⟩ := hfresh s hs
    have hne : n = st.nextId := mkLabelfile_nonce_inj (hb.symm.trans heq)
    omega
  · rw [afterStart_sessions]
    exact ⟨_, List.mem_cons_self _ _, rfl⟩

/-- Witness for C3 from the quiescent empty state. -/
theorem start_returns_fresh_open_session_witness :
    st0.superuser = true ∧ LabelsFresh st0 ∧
      (∃ lbl st1, pgespresso_start_backup "nightly" false st0 = (.ok lbl, st1) ∧
        (∀ s ∈ st0.sessions, s.labelfile ≠ lbl) ∧
        (∃ s ∈ st1.sessions, s.labelfile = lbl)) :=
  ⟨rfl, fun s hs => absurd hs (by simp [st0]),
    start_returns_fresh_open_session "nightly" false st0 rfl
      (fun s hs => absurd hs (by simp [st0]))⟩

/-- C9: the public interface has no opaque session-id handle — the exact
label text returned by start, fed unchanged as the sole argument of stop,
identifies and closes the very session that start opened, restoring the
session list from before the start. -/
theorem start_stop_roundtrip (u : String) (f : Bool) (st : EngineState)
    (hsu : st.superuser = true) (hfresh : LabelsFresh st) :
    ∃ lbl st1 out st2,
      pgespresso_start_backup u f st = (.ok lbl, st1) ∧
      pgespresso_stop_backup lbl st1 = (.ok out, st2) ∧
      st2.sessions = st.sessions ∧
      (∀ s ∈ st2.sessions, s.labelfile ≠ lbl) := by
  have hstart := pgespresso_start_backup_eq u f st hsu
  have hsu1 : (afterStart u st).superuser = true := hsu
  have hfind1 : findSession (startLabel u st) (afterStart u st).sessions =
      some ⟨startLabel u st, st.currentWritePos,
        if st.inRecovery = true then st.replayTLI else st.thisTimeLineID⟩ := by
    rw [afterStart_sessions]
    unfold findSession
    rw [if_pos rfl]
  have hstop := pgespresso_stop_backup_found _ (afterStart u st) _ hsu1 hfind1
  have hrm : removeSession (startLabel u st) (afterStart u st).sessions =
      st.sessions := by
    rw [afterStart_sessions]
    unfold removeSession
    rw [if_pos rfl]
  refine ⟨startLabel u st, afterStart u st, _, _, hstart, hstop, hrm, ?_⟩
  intro s hs heq
  have hs2 : s ∈ removeSession (startLabel u st) (afterStart u st).sessions := hs
  rw [hrm] at hs2
  obtain ⟨n, body, hn, hb⟩ := hfresh s hs2
  have hne : n = st.nextId := mkLabelfile_nonce_inj (hb.symm.trans heq)
  omega

/-- Witness for C9 from the quiescent empty state. -/
theorem start_stop_roundtrip_witness :
    st0.superuser = true ∧ LabelsFresh st0 ∧
      (∃ lbl st1 out st2,
        pgespresso_start_backup "nightly" false st0 = (.ok lbl, st1) ∧
        pgespresso_stop_backup lbl st1 = (.ok out, st2) ∧
        st2.sessions = st0.sessions ∧
        (∀ s ∈ st2.sessions, s.labelfile ≠ lbl)) :=
  ⟨rfl, fun s hs => absurd hs (by simp [st0]),
    start_stop_roundtrip "nightly" false st0 rfl
      (fun s hs => absurd hs (by simp [st0]))⟩

/-- C6: timeline resolution yields the freshly-queried replay timeline when
the engine is in recovery, and the engine's own current timeline when it is
not; an authorized start stamps the new session with exactly that resolved
timeline. -/
theorem timeline_resolution_correct (st : EngineState) :
    (st.inRecovery = true → (resolve_timeline st).1 = st.replayTLI) ∧
    (st.inRecovery = false → (resolve_timeline st).1 = st.thisTimeLineID) ∧
    (∀ u f, st.superuser = true →
      ∃ s rest, (pgespresso_start_backup u f st).2.sessions = s :: rest ∧
        s.startTimeline = (resolve_timeline st).1) := by
  refine ⟨?_, ?_, ?_⟩
  · intro hr
    simp [resolve_timeline, hr]
  · intro hr
    simp [resolve_timeline, hr]
  · intro u f hsu
    rw [pgespresso_start_backup_eq u f st hsu, afterStart_sessions]
    refine ⟨_, _, rfl, ?_⟩
    by_cases hr : st.inRecovery = true <;> simp [resolve_timeline, hr]

/-- Witness for C6, in recovery (replay timeline) and out of it. -/
theorem timeline_resolution_correct_witness :
    stRec.inRecovery = true ∧ (resolve_timeline stRec).1 = stRec.replayTLI ∧
      st0.inRecovery = false ∧ (resolve_timeline st0).1 = st0.thisTimeLineID ∧
      stRec.superuser = true ∧
      (∃ s rest,
        (pgespresso_start_backup "nightly" false stRec).2.sessions = s :: rest ∧
        s.startTimeline = (resolve_timeline stRec).1) :=
  ⟨rfl, (timeline_resolution_correct stRec).1 rfl, rfl,
    (timeline_resolution_correct st0).2.1 rfl, rfl,
    (timeline_resolution_correct stRec).2.2 "nightly" false rfl⟩

/-- C7: the segment filename encoder names the segment containing the
previous segment boundary at or before the position — when the position
lands exactly on a boundary, the preceding segment — and formats it with the
timeline as a fixed-width (24 hex character) canonical name. -/
theorem segment_encoder_prev_boundary (pos : XLogRecPtr) (tli : TimeLineID)
    (hpos : 0 < pos) :
    xLByteToPrevSeg pos * XLogSegSize < pos ∧
    pos ≤ (xLByteToPrevSeg pos + 1) * XLogSegSize ∧
    (∀ k, 0 < k → pos = k * XLogSegSize → xLByteToPrevSeg pos = k - 1) ∧
    (xLogFileName tli (xLByteToPrevSeg pos)).length = 24 := by
  refine ⟨?_, ?_, fun k hk hpk => ?_, xLogFileName_length tli _⟩
  · simp only [xLByteToPrevSeg, XLogSegSize]
    exact (prevSeg_bounds pos hpos).1
  · simp only [xLByteToPrevSeg, XLogSegSize]
    exact (prevSeg_bounds pos hpos).2
  · subst hpk
    simp only [xLByteToPrevSeg, XLogSegSize]
    exact prevSeg_boundary k hk

/-- Witness for C7 at a position exactly on the first segment boundary. -/
theorem segment_encoder_prev_boundary_witness :
    0 < (16777216 : XLogRecPtr) ∧
      (xLByteToPrevSeg 16777216 * XLogSegSize < 16777216 ∧
       16777216 ≤ (xLByteToPrevSeg 16777216 + 1) * XLogSegSize ∧
       (∀ k, 0 < k → (16777216 : XLogRecPtr) = k * XLogSegSize →
          xLByteToPrevSeg 16777216 = k - 1) ∧
       (xLogFileName 3 (xLByteToPrevSeg 16777216)).length = 24) :=
  ⟨by decide, segment_encoder_prev_boundary 16777216 3 (by decide)⟩

/-- C10: whenever the engine is in recovery, an authorized start call (and,
on pre-9.3 builds, an authorized stop call whose session lookup succeeds)
overwrites the process-global ThisTimeLineID with the replay timeline as a
side effect, and the global still holds that value after the call returns. -/
theorem recovery_overwrites_this_timeline (u l : String) (f : Bool)
    (st : EngineState) (hrec : st.inRecovery = true) (hsu : st.superuser = true) :
    (pgespresso_start_backup u f st).2.thisTimeLineID = st.replayTLI ∧
    ((findSession l st.sessions).isSome = true →
      (pgespresso_stop_backup_92 l st).2.thisTimeLineID = st.replayTLI) := by
  constructor
  · rw [pgespresso_start_backup_eq u f st hsu]
    show (if st.inRecovery = true then st.replayTLI else st.thisTimeLineID) =
      st.replayTLI
    rw [if_pos hrec]
  · intro hfind
    cases hfd : findSession l st.sessions with
    | none =>
        rw [hfd] at hfind
        simp at hfind
    | some s =>
        unfold pgespresso_stop_backup_92 do_pg_stop_backup resolve_timeline
        simp [hsu, hfd, hrec]

/-- Witness for C10: the standby state, via start and the pre-9.3 stop. -/
theorem recovery_overwrites_this_timeline_witness :
    stRec.inRecovery = true ∧ stRec.superuser = true ∧
      (findSession "L0" stRec.sessions).isSome = true ∧
      (pgespresso_start_backup "nightly" false stRec).2.thisTimeLineID =
        stRec.replayTLI ∧
      (pgespresso_stop_backup_92 "L0" stRec).2.thisTimeLineID = stRec.replayTLI :=
  ⟨rfl, rfl, by decide,
    (recovery_overwrites_this_timeline "nightly" "L0" false stRec rfl rfl).1,
    (recovery_overwrites_this_timeline "nightly" "L0" false stRec rfl rfl).2
      (by decide)⟩
